import Mathlib

/-!
Shallow embedding of `src/server.js` (task-reminder scheduler).

The server keeps Users, Tasks and Logs in MongoDB and arms one node-cron
job per `POST /add-task` request.  The cron pattern built at
src/server.js:335 is
  `sec min hour day month *`
(day-of-week and year are wildcards), so a job fires at every instant
whose second/minute/hour/day-of-month/month fields match, and the
returned job handle is discarded: nothing ever calls `stop()` on it.

JS `new Date(executionDate)` either yields a valid calendar time or an
Invalid Date (`NaN`); we model the parse result as `Option CalTime`
(`none` = Invalid Date).  `POST /add-task` rejects `none`
(src/server.js:320-323); `PUT /update-task/:id` performs no such check
(src/server.js:405-415).
-/

namespace Server

/-- A calendar instant as JS `Date` accessors expose it
(`getSeconds`, `getMinutes`, `getHours`, `getDate`, `getMonth()+1`,
plus the year, which the cron pattern never constrains). -/
structure CalTime where
  year : Nat
  month : Nat
  day : Nat
  hour : Nat
  minute : Nat
  second : Nat
deriving DecidableEq, Repr

/-- Result of `new Date(executionDate)`: `none` is an Invalid Date (NaN). -/
abbrev JSDate := Option CalTime

/-- A row of the `User` collection (src/server.js:197-204); only the
fields the scheduler reads. -/
structure User where
  id : Nat
  email : String
deriving DecidableEq, Repr

/-- A row of the `Task` collection (src/server.js:207-211). -/
structure Task where
  id : Nat
  taskName : String
  nextExecution : JSDate
  userId : Nat
deriving DecidableEq, Repr

/-- A row of the `Log` collection (src/server.js:213-219). -/
structure LogEntry where
  taskName : String
  executionTime : CalTime
  status : String
  message : String
  userId : Nat
deriving DecidableEq, Repr

/-- One armed node-cron job created at src/server.js:334-371: the five
constrained pattern fields plus the data the JS closure captures
(`taskName` and the saved task document, from which it reads
`task.userId` at fire time). -/
structure Trigger where
  taskId : Nat
  second : Nat
  minute : Nat
  hour : Nat
  day : Nat
  month : Nat
  capturedTaskName : String
  capturedUserId : Nat
deriving DecidableEq, Repr

/-- The whole server state: the three Mongo collections, the in-memory
armed cron jobs, and the id counter standing in for Mongo ObjectId
generation. -/
structure ServerState where
  users : List User
  tasks : List Task
  logs : List LogEntry
  triggers : List Trigger
  nextId : Nat
deriving Repr

/-- HTTP responses the handlers return. -/
inductive Response where
  | ok (message : String)
  | clientError (message : String)
  | notFound (message : String)
deriving DecidableEq, Repr

/-- `User.findById` (src/server.js:341). -/
def findUser (users : List User) (uid : Nat) : Option User :=
  users.find? (fun u => u.id == uid)

/-- Does the cron pattern `sec min hour day month *` match instant `t`?
Year and day-of-week are unconstrained (src/server.js:335). -/
def cronMatches (tr : Trigger) (t : CalTime) : Bool :=
  t.second == tr.second && t.minute == tr.minute && t.hour == tr.hour &&
    t.day == tr.day && t.month == tr.month

/-- The cron fire callback (src/server.js:336-368): look up the owning
user; if absent, log Failure "User not found"; otherwise attempt
`sendEmail` (src/server.js:235-250), which on transport failure throws
an Error whose message is "Failed to send email", logged as Failure,
the triggering error message carried verbatim; on success log
Success "Email sent successfully".  `emailOk` tells whether the
transporter delivers to a given address.  Exactly one log entry is
produced either way. -/
def fireLog (users : List User) (emailOk : String → Bool) (tr : Trigger)
    (now : CalTime) : LogEntry :=
  match findUser users tr.capturedUserId with
  | none =>
      { taskName := tr.capturedTaskName, executionTime := now,
        status := "Failure", message := "User not found",
        userId := tr.capturedUserId }
  | some u =>
      if emailOk u.email then
        { taskName := tr.capturedTaskName, executionTime := now,
          status := "Success", message := "Email sent successfully",
          userId := tr.capturedUserId }
      else
        { taskName := tr.capturedTaskName, executionTime := now,
          status := "Failure", message := "Failed to send email",
          userId := tr.capturedUserId }

/-- Advance the clock to instant `t`: every armed cron job whose pattern
matches `t` runs its callback, appending one log entry.  node-cron keeps
the job armed afterwards (no handler ever stops a job). -/
def advanceTo (emailOk : String → Bool) (s : ServerState) (t : CalTime) :
    ServerState :=
  let fired := (s.triggers.filter (fun tr => cronMatches tr t)).map
    (fun tr => fireLog s.users emailOk tr t)
  { s with logs := s.logs ++ fired }

/-- `POST /add-task` (src/server.js:315-378): reject an Invalid Date
with 400 before persisting; otherwise save the Task and arm a cron job
whose closure captures `taskName` and the task document. -/
def addTask (s : ServerState) (uid : Nat) (taskName : String)
    (executionDate : JSDate) : Response × ServerState :=
  match executionDate with
  | none => (Response.clientError "Invalid execution date", s)
  | some d =>
      let task : Task :=
        { id := s.nextId, taskName := taskName,
          nextExecution := some d, userId := uid }
      let tr : Trigger :=
        { taskId := s.nextId, second := d.second, minute := d.minute,
          hour := d.hour, day := d.day, month := d.month,
          capturedTaskName := taskName, capturedUserId := uid }
      (Response.ok "Task scheduled",
       { s with tasks := s.tasks ++ [task],
                triggers := s.triggers ++ [tr],
                nextId := s.nextId + 1 })

/-- `DELETE /delete-task/:id` (src/server.js:382-390):
`Task.findOneAndDelete` keyed by `(_id, userId)`, 404 if absent, then
`Log.deleteMany` keyed by `(taskName, userId)`.  The armed cron job is
not touched. -/
def deleteTask (s : ServerState) (uid : Nat) (id : Nat) :
    Response × ServerState :=
  match s.tasks.find? (fun t => t.id == id && t.userId == uid) with
  | none => (Response.notFound "Task not found", s)
  | some task =>
      (Response.ok "Task and associated logs deleted",
       { s with
         tasks := s.tasks.filter (fun t => !(t.id == id && t.userId == uid)),
         logs := s.logs.filter
           (fun l => !(l.taskName == task.taskName && l.userId == uid)) })

/-- `PUT /update-task/:id` (src/server.js:405-427):
`Task.findOneAndUpdate` keyed by `(_id, userId)`, 404 if absent;
the new `executionDate` is stored via `new Date(executionDate)` with no
validity check, an informational `Updated` log entry is written, and the
existing cron job is neither stopped nor replaced (the source log
message interpolates the raw date string; the claims never read it, so
we keep it constant). -/
def updateTask (s : ServerState) (uid : Nat) (id : Nat) (taskName : String)
    (executionDate : JSDate) (now : CalTime) : Response × ServerState :=
  match s.tasks.find? (fun t => t.id == id && t.userId == uid) with
  | none => (Response.notFound "Task not found", s)
  | some _ =>
      let entry : LogEntry :=
        { taskName := taskName, executionTime := now, status := "Updated",
          message := "Task updated to execute at the requested date",
          userId := uid }
      (Response.ok "Task updated successfully",
       { s with
         tasks := s.tasks.map (fun t =>
           if t.id == id && t.userId == uid then
             { t with taskName := taskName, nextExecution := executionDate }
           else t),
         logs := s.logs ++ [entry] })

/-- `GET /tasks` (src/server.js:393-396). -/
def listTasks (s : ServerState) (uid : Nat) : List Task :=
  s.tasks.filter (fun t => t.userId == uid)

/-- Is instant `a` at or after instant `b` (lexicographic on calendar
fields)?  Models the descending sort key on executionTime used by the
task-history route. -/
def laterEq (a b : CalTime) : Bool :=
  if a.year != b.year then b.year < a.year
  else if a.month != b.month then b.month < a.month
  else if a.day != b.day then b.day < a.day
  else if a.hour != b.hour then b.hour < a.hour
  else if a.minute != b.minute then b.minute < a.minute
  else b.second ≤ a.second

/-- Insert a log entry into a list sorted by `executionTime` descending. -/
def insertDesc (l : LogEntry) : List LogEntry → List LogEntry
  | [] => [l]
  | x :: xs =>
      if laterEq l.executionTime x.executionTime then l :: x :: xs
      else x :: insertDesc l xs

/-- Sort log entries by `executionTime` descending (insertion sort). -/
def sortByTimeDesc : List LogEntry → List LogEntry
  | [] => []
  | x :: xs => insertDesc x (sortByTimeDesc xs)

/-- `GET /task-history` (src/server.js:399-402): the log rows of the
requesting user, sorted by execution time descending. -/
def taskHistory (s : ServerState) (uid : Nat) : List LogEntry :=
  sortByTimeDesc (s.logs.filter (fun l => l.userId == uid))

/-- Process start (src/server.js:429-431): `app.listen` starts the HTTP
server.  No Task rows are read back and no cron jobs are re-armed, so
whatever the stores hold, the trigger registry starts empty. -/
def startup (users : List User) (tasks : List Task) (logs : List LogEntry)
    (nid : Nat) : ServerState :=
  { users := users, tasks := tasks, logs := logs,
    triggers := [], nextId := nid }

/-- One client-visible operation on the running server. -/
inductive Op where
  | add (uid : Nat) (name : String) (d : JSDate)
  | update (uid : Nat) (id : Nat) (name : String) (d : JSDate) (now : CalTime)
  | delete (uid : Nat) (id : Nat)
  | advance (t : CalTime)

/-- Apply one operation to the server state. -/
def step (emailOk : String → Bool) (s : ServerState) : Op → ServerState
  | Op.add u n d => (addTask s u n d).2
  | Op.update u i n d now => (updateTask s u i n d now).2
  | Op.delete u i => (deleteTask s u i).2
  | Op.advance t => advanceTo emailOk s t

/-- Run a sequence of operations. -/
def run (emailOk : String → Bool) (s : ServerState) (ops : List Op) :
    ServerState :=
  ops.foldl (step emailOk) s

/-- A freshly started process with the given user accounts and empty
stores. -/
def initState (users : List User) : ServerState :=
  { users := users, tasks := [], logs := [], triggers := [], nextId := 0 }

/-! Concrete scenario used throughout: one registered user who arms the
task "Pay rent" for 2025-05-10 09:00:00. -/

/-- The one registered user of the concrete scenario. -/
def demoUser : User := { id := 1, email := "u1@example.com" }

/-- The target instant of the armed task: 2025-05-10 09:00:00. -/
def instA : CalTime := ⟨2025, 5, 10, 9, 0, 0⟩

/-- The same calendar fields one year later: 2026-05-10 09:00:00. -/
def instALater : CalTime := ⟨2026, 5, 10, 9, 0, 0⟩

/-- A distinct later instant used as an updated target: 2025-06-01
09:00:00. -/
def instB : CalTime := ⟨2025, 6, 1, 9, 0, 0⟩

/-- Wall-clock instant at which the update request is handled
(before either target instant): 2025-05-01 08:00:00. -/
def updNow : CalTime := ⟨2025, 5, 1, 8, 0, 0⟩

/-- A mail transporter that delivers to every address. -/
def allOk : String → Bool := fun _ => true

/-- Fresh server with the one registered user and empty stores. -/
def s0 : ServerState := initState [demoUser]

/-- State after `POST /add-task` arming "Pay rent" for `instA`. -/
def sArmed : ServerState := (addTask s0 1 "Pay rent" (some instA)).2

/-- The cron job armed by `sArmed` (pattern fields of `instA`, closure
capturing the task name and owner). -/
def trA : Trigger :=
  { taskId := 0, second := 0, minute := 0, hour := 9, day := 10, month := 5,
    capturedTaskName := "Pay rent", capturedUserId := 1 }

/-- The task record persisted by `sArmed`. -/
def taskA : Task :=
  { id := 0, taskName := "Pay rent", nextExecution := some instA, userId := 1 }

/-- State after `PUT /update-task/0` moving the target to `instB`. -/
def sUpdated : ServerState :=
  (updateTask sArmed 1 0 "Pay rent" (some instB) updNow).2

/-- State after `DELETE /delete-task/0`. -/
def sDeleted : ServerState := (deleteTask sArmed 1 0).2

/-- State after the process restarts while `sArmed` was persisted:
the stores survive, the in-memory cron registry does not. -/
def sRestarted : ServerState :=
  startup [demoUser] sArmed.tasks sArmed.logs sArmed.nextId

/-! Helper lemmas. -/

/-- Membership in an insertion step of the descending sort. -/
theorem mem_insertDesc (x l : LogEntry) (xs : List LogEntry) :
    x ∈ insertDesc l xs ↔ x = l ∨ x ∈ xs := by
  induction xs with
  | nil => simp [insertDesc]
  | cons y ys ih =>
      by_cases h : laterEq l.executionTime y.executionTime
      · simp [insertDesc, h]
      · simp [insertDesc, h, ih]
        tauto

/-- Sorting the log rows does not change which rows are present. -/
theorem mem_sortByTimeDesc (x : LogEntry) (xs : List LogEntry) :
    x ∈ sortByTimeDesc xs ↔ x ∈ xs := by
  induction xs with
  | nil => simp [sortByTimeDesc]
  | cons y ys ih => simp [sortByTimeDesc, mem_insertDesc, ih]

/-- Removing rows a later filter would drop anyway does not change the
result of that filter. -/
theorem filter_filter_of_imp {α : Type} (p q : α → Bool) (l : List α)
    (h : ∀ a, p a = true → q a = true) :
    (l.filter q).filter p = l.filter p := by
  induction l with
  | nil => rfl
  | cons a as ih =>
      by_cases hp : p a = true
      · have hq := h a hp
        simp [List.filter_cons, hp, hq, ih]
      · by_cases hq : q a = true
        · simp [List.filter_cons, hp, hq, ih]
        · simp [List.filter_cons, hp, hq, ih]

/-- The update handler never touches the cron registry or the id
counter, whether or not the task exists. -/
theorem updateTask_triggers_nextId (s : ServerState) (uid tid : Nat)
    (n : String) (d : JSDate) (now : CalTime) :
    (updateTask s uid tid n d now).2.triggers = s.triggers ∧
    (updateTask s uid tid n d now).2.nextId = s.nextId := by
  rcases h : s.tasks.find? (fun t => t.id == tid && t.userId == uid) with _ | task <;>
    simp [updateTask, h]

/-- The delete handler never touches the cron registry or the id
counter, whether or not the task exists. -/
theorem deleteTask_triggers_nextId (s : ServerState) (uid tid : Nat) :
    (deleteTask s uid tid).2.triggers = s.triggers ∧
    (deleteTask s uid tid).2.nextId = s.nextId := by
  rcases h : s.tasks.find? (fun t => t.id == tid && t.userId == uid) with _ | task <;>
    simp [deleteTask, h]

/-- Registry invariant: every armed cron job carries a task id below the
id counter, and no two armed jobs share a task id. -/
def TriggerInv (s : ServerState) : Prop :=
  (∀ tr ∈ s.triggers, tr.taskId < s.nextId) ∧
  s.triggers.Pairwise (fun a b => a.taskId ≠ b.taskId)

/-- The invariant transfers along states with equal registry and
counter. -/
theorem triggerInv_of_eq {s sn : ServerState} (ht : sn.triggers = s.triggers)
    (hn : sn.nextId = s.nextId) (h : TriggerInv s) : TriggerInv sn := by
  unfold TriggerInv at h ⊢
  rw [ht, hn]
  exact h

/-- Every client operation preserves the registry invariant. -/
theorem step_triggerInv (f : String → Bool) (s : ServerState) (o : Op)
    (h : TriggerInv s) : TriggerInv (step f s o) := by
  cases o with
  | add u n d =>
      cases d with
      | none => exact triggerInv_of_eq rfl rfl h
      | some dd =>
          obtain ⟨hb, hp⟩ := h
          constructor
          · intro tr htr
            rw [show (step f s (Op.add u n (some dd))).triggers
                  = s.triggers ++
                    [⟨s.nextId, dd.second, dd.minute, dd.hour, dd.day,
                      dd.month, n, u⟩] from rfl] at htr
            rw [show (step f s (Op.add u n (some dd))).nextId
                  = s.nextId + 1 from rfl]
            rcases List.mem_append.mp htr with h1 | h1
            · exact Nat.lt_succ_of_lt (hb tr h1)
            · have h2 : tr = ⟨s.nextId, dd.second, dd.minute, dd.hour,
                dd.day, dd.month, n, u⟩ := by simpa using h1
              rw [h2]
              exact Nat.lt_succ_self _
          · rw [show (step f s (Op.add u n (some dd))).triggers
                  = s.triggers ++
                    [⟨s.nextId, dd.second, dd.minute, dd.hour, dd.day,
                      dd.month, n, u⟩] from rfl]
            rw [List.pairwise_append]
            refine ⟨hp, List.pairwise_singleton _ _, ?_⟩
            intro a ha b hbmem
            have h2 : b = ⟨s.nextId, dd.second, dd.minute, dd.hour, dd.day,
              dd.month, n, u⟩ := by simpa using hbmem
            rw [h2]
            exact Nat.ne_of_lt (hb a ha)
  | update u i n d now =>
      exact triggerInv_of_eq (updateTask_triggers_nextId s u i n d now).1
        (updateTask_triggers_nextId s u i n d now).2 h
  | delete u i =>
      exact triggerInv_of_eq (deleteTask_triggers_nextId s u i).1
        (deleteTask_triggers_nextId s u i).2 h
  | advance t => exact triggerInv_of_eq rfl rfl h

/-- Every run of client operations preserves the registry invariant. -/
theorem run_triggerInv (f : String → Bool) (ops : List Op) :
    ∀ s : ServerState, TriggerInv s → TriggerInv (run f s ops) := by
  induction ops with
  | nil => intro s h; exact h
  | cons o os ih =>
      intro s h
      exact ih (step f s o) (step_triggerInv f s o h)

/-! The claims. -/

/-- C1: the claim says a fired Trigger is consumed and never fires
again.  In the code the cron job armed for "Pay rent" at instant
`instA` does fire exactly once there and write exactly one log entry,
but it is never stopped: one year later, at `instALater` (same
second/minute/hour/day/month fields), the same job fires again and
writes a second ExecutionLogEntry for the same task, and the job is
still armed afterwards. -/
theorem C1_trigger_refires_annually :
    (advanceTo allOk sArmed instA).logs.length = 1 ∧
    (advanceTo allOk (advanceTo allOk sArmed instA) instALater).logs.length = 2 ∧
    (advanceTo allOk (advanceTo allOk sArmed instA) instALater).logs.map
        (fun l => l.taskName) = ["Pay rent", "Pay rent"] ∧
    (advanceTo allOk (advanceTo allOk sArmed instA) instALater).triggers
      = sArmed.triggers :=
  ⟨rfl, rfl, rfl, rfl⟩

/-- C2: the claim says updating the target instant disarms the original
Trigger and arms a new one.  In the code `PUT /update-task` only writes
the store and an informational Updated entry: advancing the clock to the
original instant `instA` still fires the old cron job (one new log
entry), while advancing to the new instant `instB` fires nothing. -/
theorem C2_update_leaves_old_trigger_armed :
    sUpdated.logs.map (fun l => l.status) = ["Updated"] ∧
    (advanceTo allOk sUpdated instA).logs.map (fun l => l.status)
      = ["Updated", "Success"] ∧
    (advanceTo allOk sUpdated instB).logs = sUpdated.logs :=
  ⟨rfl, rfl, rfl⟩

/-- C3: the claim says deleting a task before its instant removes its
armed Trigger and leaves the log history of that user empty.  In the
code `DELETE /delete-task` removes the store rows but never stops the
cron job: advancing the clock to the original instant still fires it,
writing a fresh ExecutionLogEntry, so the task-history listing for the
user is non-empty afterwards. -/
theorem C3_delete_leaves_trigger_armed :
    sDeleted.tasks = [] ∧ sDeleted.logs = [] ∧
    (advanceTo allOk sDeleted instA).logs.map (fun l => l.status)
      = ["Success"] ∧
    (taskHistory (advanceTo allOk sDeleted instA) 1).length = 1 :=
  ⟨rfl, rfl, rfl, rfl⟩

/-- C4: the claim says startup re-arms a Trigger for every persisted
Scheduled task, firing overdue ones promptly.  In the code process
start is just `app.listen`: after a restart with the "Pay rent" task
still in the store, the cron registry is empty and advancing the clock
to the target instant fires nothing and writes no log entry. -/
theorem C4_no_startup_recovery :
    sRestarted.tasks = sArmed.tasks ∧
    sRestarted.triggers = [] ∧
    (advanceTo allOk sRestarted instA).logs = [] :=
  ⟨rfl, rfl, rfl⟩

/-- C5: at every state reachable by client operations from a fresh
server, no two armed cron jobs are bound to the same task id, so no
task id can fire in duplicate at one instant.  (In the code this holds
because only `POST /add-task` ever arms a job, always for a freshly
generated task id; no handler ever cancels one.) -/
theorem C5_at_most_one_trigger_per_id (users : List User)
    (f : String → Bool) (ops : List Op) :
    (run f (initState users) ops).triggers.Pairwise
      (fun a b => a.taskId ≠ b.taskId) := by
  have h0 : TriggerInv (initState users) := by
    constructor
    · intro tr htr
      simp [initState] at htr
    · rw [show (initState users).triggers = [] from rfl]
      exact List.Pairwise.nil
  exact (run_triggerInv f ops (initState users) h0).2

/-- C6: every firing attempt appends exactly one ExecutionLogEntry (one
per matching armed job) and changes nothing else, so a failed fire is
never retried; the entry is Success with the fixed confirmation message
when the owner resolves and the send succeeds, Failure with message
"User not found" when the owner is absent, and Failure with the thrown
error message "Failed to send email" when the send fails. -/
theorem C6_fire_writes_one_outcome_log (s : ServerState)
    (f : String → Bool) (t : CalTime) (tr : Trigger) :
    (advanceTo f s t).logs.length
        = s.logs.length + (s.triggers.filter (fun x => cronMatches x t)).length ∧
    (advanceTo f s t).triggers = s.triggers ∧
    (advanceTo f s t).tasks = s.tasks ∧
    (findUser s.users tr.capturedUserId = none →
      (fireLog s.users f tr t).status = "Failure" ∧
      (fireLog s.users f tr t).message = "User not found") ∧
    (∀ u, findUser s.users tr.capturedUserId = some u →
      (f u.email = true →
        (fireLog s.users f tr t).status = "Success" ∧
        (fireLog s.users f tr t).message = "Email sent successfully") ∧
      (f u.email = false →
        (fireLog s.users f tr t).status = "Failure" ∧
        (fireLog s.users f tr t).message = "Failed to send email")) := by
  refine ⟨by simp [advanceTo], rfl, rfl, ?_, ?_⟩
  · intro h
    simp [fireLog, h]
  · intro u hu
    constructor <;> intro hf <;> simp [fireLog, hu, hf]

/-- Witness for C6 at concrete inputs: with the registered user the
fire logs Success; with an empty user store it logs Failure. -/
theorem C6_fire_writes_one_outcome_log_witness :
    (fireLog s0.users allOk trA instA).status = "Success" ∧
    (fireLog (initState []).users allOk trA instA).status = "Failure" :=
  ⟨(((C6_fire_writes_one_outcome_log s0 allOk instA trA).2.2.2.2 demoUser
      rfl).1 rfl).1,
   ((C6_fire_writes_one_outcome_log (initState []) allOk instA trA).2.2.2.1
      rfl).1⟩

/-- C7: a task-creation request whose target instant does not parse to
a valid calendar time (an Invalid Date) is rejected with the
invalid-date error before anything is persisted: the state is returned
unchanged, so no Task row and no cron job is created. -/
theorem C7_addTask_rejects_invalid_date (s : ServerState) (uid : Nat)
    (name : String) :
    addTask s uid name none = (Response.clientError "Invalid execution date", s) :=
  rfl

/-- C8: if a task with the requested id exists for the requesting user,
delete removes exactly that task row and exactly the log rows matching
its task name and the requesting user, leaving users untouched;
otherwise it answers NotFound and changes nothing. -/
theorem C8_delete_cascade_by_name_and_user (s : ServerState) (uid tid : Nat) :
    (s.tasks.find? (fun t => t.id == tid && t.userId == uid) = none →
      deleteTask s uid tid = (Response.notFound "Task not found", s)) ∧
    (∀ task, s.tasks.find? (fun t => t.id == tid && t.userId == uid) = some task →
      (deleteTask s uid tid).1 = Response.ok "Task and associated logs deleted" ∧
      (∀ t : Task, t ∈ (deleteTask s uid tid).2.tasks ↔
        (t ∈ s.tasks ∧ ¬(t.id = tid ∧ t.userId = uid))) ∧
      (∀ l : LogEntry, l ∈ (deleteTask s uid tid).2.logs ↔
        (l ∈ s.logs ∧ ¬(l.taskName = task.taskName ∧ l.userId = uid))) ∧
      (deleteTask s uid tid).2.users = s.users) := by
  constructor
  · intro h
    simp [deleteTask, h]
  · intro task h
    refine ⟨by simp [deleteTask, h], ?_, ?_, by simp [deleteTask, h]⟩
    · intro t
      simp [deleteTask, h, List.mem_filter]
      tauto
    · intro l
      simp [deleteTask, h, List.mem_filter]
      tauto

/-- Witness for C8 at concrete inputs: on the fresh server the delete
answers NotFound; on the armed server it succeeds. -/
theorem C8_delete_cascade_by_name_and_user_witness :
    deleteTask s0 1 0 = (Response.notFound "Task not found", s0) ∧
    (deleteTask sArmed 1 0).1 = Response.ok "Task and associated logs deleted" :=
  ⟨(C8_delete_cascade_by_name_and_user s0 1 0).1 rfl,
   ((C8_delete_cascade_by_name_and_user sArmed 1 0).2 taskA rfl).1⟩

/-- C9: the listing routes only return rows owned by the requesting
user, and the delete route leaves the tasks and log history of every
other user exactly as they were. -/
theorem C9_user_isolation (s : ServerState) (uid other tid : Nat) :
    (∀ t ∈ listTasks s uid, t.userId = uid) ∧
    (∀ l ∈ taskHistory s uid, l.userId = uid) ∧
    (other ≠ uid →
      listTasks (deleteTask s uid tid).2 other = listTasks s other ∧
      taskHistory (deleteTask s uid tid).2 other = taskHistory s other) := by
  refine ⟨?_, ?_, ?_⟩
  · intro t ht
    simp [listTasks, List.mem_filter] at ht
    exact ht.2
  · intro l hl
    unfold taskHistory at hl
    rw [mem_sortByTimeDesc] at hl
    simp [List.mem_filter] at hl
    exact hl.2
  · intro hne
    rcases hfind : s.tasks.find? (fun t => t.id == tid && t.userId == uid)
      with _ | task
    · simp [deleteTask, hfind]
    · constructor
      · unfold listTasks
        rw [show (deleteTask s uid tid).2.tasks
              = s.tasks.filter (fun t => !(t.id == tid && t.userId == uid))
            from by simp [deleteTask, hfind]]
        apply filter_filter_of_imp
        intro a ha
        have ha2 : a.userId = other := by simpa using ha
        simp [ha2]
        exact Or.inr hne
      · unfold taskHistory
        rw [show (deleteTask s uid tid).2.logs
              = s.logs.filter
                  (fun l => !(l.taskName == task.taskName && l.userId == uid))
            from by simp [deleteTask, hfind]]
        rw [filter_filter_of_imp]
        intro a ha
        have ha2 : a.userId = other := by simpa using ha
        simp [ha2]
        exact Or.inr hne

/-- Witness for C9 at concrete inputs: a delete by user 1 leaves the
listings of user 2 unchanged, and the listings only hold owned rows. -/
theorem C9_user_isolation_witness :
    listTasks (deleteTask sArmed 1 0).2 2 = listTasks sArmed 2 ∧
    taskHistory (deleteTask sArmed 1 0).2 2 = taskHistory sArmed 2 :=
  (C9_user_isolation sArmed 1 2 0).2.2 (by decide)

/-- C10: the update route validates nothing: sending an unparseable
executionDate (an Invalid Date) for the armed task is answered with
success and persists the invalid instant as the new nextExecution,
while the very same date is rejected by the add-task route. -/
theorem C10_update_skips_date_validation :
    (updateTask sArmed 1 0 "Pay rent" none updNow).1
      = Response.ok "Task updated successfully" ∧
    ((updateTask sArmed 1 0 "Pay rent" none updNow).2.tasks.find?
        (fun t => t.id == 0)).map (fun t => t.nextExecution) = some none ∧
    (addTask sArmed 1 "Pay rent" none).1
      = Response.clientError "Invalid execution date" :=
  ⟨rfl, rfl, rfl⟩

end Server
